import Mathlib

/-!
# Verification of the Cerbos decision core against its specification

This development shallowly embeds the parts of the cerbos repository that the
verified claims are about: the engine's per-action decision procedure, the
policy loader and its content hash, the JSON-schema validation of `Match`
values and of `ResourceRule.name`, the client policy builders, and the client
response accessors.  Parts whose implementation is present in the repository
(client/model.go, the JSON schema documents, the engine test data) are
translated directly; parts whose implementation is absent (engine, loader,
`policy.Validate`) are modelled from the specification, as noted on each
definition.
-/

namespace Cerbos

/-- Association-list lookup, modelling Go map indexing (`m[k]` with `ok`). -/
def alookup (k : String) : List (String × α) → Option α
  | [] => Option.none
  | (k', v) :: rest => if k' = k then some v else alookup k rest

namespace Engine

/-- Attribute values as used by the engine test data under
`src/internal/test/testdata/engine`: strings and booleans suffice for the
claimed scenarios. -/
inductive AttrVal where
  | str (v : String)
  | bool (v : Bool)
deriving DecidableEq

/-- Decision effect (`EFFECT_ALLOW` / `EFFECT_DENY`). -/
inductive Effect where
  | allow
  | deny
deriving DecidableEq

/-- `CheckInput.principal` (spec §4.5): id, policy version, roles, attributes. -/
structure Principal where
  id : String
  policyVersion : String
  roles : List String
  attr : List (String × AttrVal)
deriving DecidableEq

/-- `CheckInput.resource` (spec §4.5): kind, policy version, id, attributes. -/
structure Resource where
  kind : String
  policyVersion : String
  id : String
  attr : List (String × AttrVal)
deriving DecidableEq

/-- Modelled from the spec: the condition expressions (restricted CEL, spec
§4.2) needed by the policies of the claimed scenarios — equality of a resource
attribute with a constant, and equality of a resource attribute with a
principal attribute.  The condition evaluator itself is not under src/. -/
inductive CondExpr where
  | resourceAttrEq (key : String) (v : AttrVal)
  | resourceAttrEqPrincipalAttr (rkey pkey : String)
deriving DecidableEq

/-- Evaluate a condition expression against the request environment
(`request.principal` / `request.resource`, spec §4.2). -/
def evalCondExpr (p : Principal) (r : Resource) : CondExpr → Bool
  | .resourceAttrEq k v => alookup k r.attr == some v
  | .resourceAttrEqPrincipalAttr rk pk =>
      match alookup rk r.attr, alookup pk p.attr with
      | some a, some b => a == b
      | _, _ => false

mutual

/-- The `Match` tree: `all` / `any` / `none` / `expr` (spec §3, §4.2). -/
inductive MatchT where
  | expr (e : CondExpr)
  | all (of : MatchTList)
  | any (of : MatchTList)
  | none (of : MatchTList)

/-- The `of` list of an `all` / `any` / `none` variant. -/
inductive MatchTList where
  | nil
  | cons (m : MatchT) (ms : MatchTList)

end

mutual

/-- Modelled from the spec: recursive `Match` evaluation (spec §4.2): `all` is
AND, `any` is OR, `none` is NOT-OR, each short-circuiting. -/
def evalMatch (p : Principal) (r : Resource) : MatchT → Bool
  | .expr e => evalCondExpr p r e
  | .all of => evalMatchAll p r of
  | .any of => evalMatchAny p r of
  | .none of => !(evalMatchAny p r of)

/-- Conjunction over a `Match` list, short-circuiting on `false`. -/
def evalMatchAll (p : Principal) (r : Resource) : MatchTList → Bool
  | .nil => true
  | .cons m ms => evalMatch p r m && evalMatchAll p r ms

/-- Disjunction over a `Match` list, short-circuiting on `true`. -/
def evalMatchAny (p : Principal) (r : Resource) : MatchTList → Bool
  | .nil => false
  | .cons m ms => evalMatch p r m || evalMatchAny p r ms

end

/-- An absent condition always holds. -/
def evalCond (p : Principal) (r : Resource) : Option MatchT → Bool
  | Option.none => true
  | some m => evalMatch p r m

/-- Modelled from the spec: action/resource glob matching (spec §3, §8.4):
`*` matches anything, a trailing `*` matches the leading characters, otherwise
literal equality. -/
def globMatches (pat s : String) : Bool :=
  if pat = "*" then true
  else if pat.data.getLast? == some '*' then List.isPrefixOf pat.data.dropLast s.data
  else pat == s

/-- A derived-role definition (`RoleDef`, spec §3). -/
structure RoleDef where
  name : String
  parentRoles : List String
  condition : Option MatchT

/-- A resource-policy rule (`ResourceRule`, spec §3). -/
structure ResourceRule where
  actions : List String
  roles : List String
  derivedRoles : List String
  condition : Option MatchT
  effect : Effect

/-- A compiled resource policy: rules plus the expansion of its
`importDerivedRoles` (spec §4.3). -/
structure ResourcePolicyCU where
  resource : String
  version : String
  derivedRoleDefs : List RoleDef
  rules : List ResourceRule

/-- One action entry of a `PrincipalRule` (spec §3). -/
structure PrincipalRuleAction where
  action : String
  effect : Effect
  condition : Option MatchT

/-- A principal-policy rule: a resource glob plus its action entries
(spec §3). -/
structure PrincipalRuleM where
  resource : String
  actions : List PrincipalRuleAction

/-- A compiled principal policy. -/
structure PrincipalPolicyCU where
  principal : String
  version : String
  rules : List PrincipalRuleM

/-- The compiled policy set visible to the engine (spec §4.4). -/
structure PolicyBundle where
  principalPolicies : List PrincipalPolicyCU
  resourcePolicies : List ResourcePolicyCU

/-- Policy identifier of a principal policy: `principal.<id>.v<version>`
(spec §6). -/
def principalPolicyId (pp : PrincipalPolicyCU) : String :=
  "principal." ++ pp.principal ++ ".v" ++ pp.version

/-- Policy identifier of a resource policy: `resource.<kind>.v<version>`
(spec §6). -/
def resourcePolicyId (cu : ResourcePolicyCU) : String :=
  "resource." ++ cu.resource ++ ".v" ++ cu.version

/-- Principal-policy lookup by `(principal id, policy version)` (spec §4.5
step 1). -/
def findPrincipalPolicy (b : PolicyBundle) (id version : String) :
    Option PrincipalPolicyCU :=
  b.principalPolicies.find? (fun pp => pp.principal == id && pp.version == version)

/-- Resource-policy lookup by `(resource kind, resource policy version)`
(spec §4.5 step 2): the resource's version, not the principal's, selects the
resource policy. -/
def findResourcePolicy (b : PolicyBundle) (kind version : String) :
    Option ResourcePolicyCU :=
  b.resourcePolicies.find? (fun cu => cu.resource == kind && cu.version == version)

/-- Modelled from the spec: a derived role activates when its parent-role set
intersects the principal's roles and its condition (if any) holds (spec §4.5
step 2a). -/
def activatesRole (p : Principal) (r : Resource) (rd : RoleDef) : Bool :=
  rd.parentRoles.any (fun pr => p.roles.contains pr) && evalCond p r rd.condition

/-- The effective derived roles of a request under a resource policy, in
definition order (spec §4.5 step 2a, §8.5). -/
def effectiveDerivedRoles (p : Principal) (r : Resource) (cu : ResourcePolicyCU) :
    List String :=
  (cu.derivedRoleDefs.filter (activatesRole p r)).map (fun rd => rd.name)

/-- Modelled from the spec: a resource rule applies when the requested action
matches one of its action globs, the effective role set intersects the rule's
roles or derived roles, and its condition holds (spec §4.5 step 2b). -/
def ruleApplies (p : Principal) (r : Resource) (edr : List String)
    (action : String) (rule : ResourceRule) : Bool :=
  rule.actions.any (fun a => globMatches a action) &&
  (rule.roles.any (fun ro => p.roles.contains ro) ||
    rule.derivedRoles.any (fun dr => edr.contains dr)) &&
  evalCond p r rule.condition

/-- First matching resource rule in declaration order yields its effect
(spec §4.5 step 2b). -/
def evalResourceRules (p : Principal) (r : Resource) (edr : List String)
    (action : String) : List ResourceRule → Option Effect
  | [] => Option.none
  | rule :: rest =>
    if ruleApplies p r edr action rule then some rule.effect
    else evalResourceRules p r edr action rest

/-- First action entry whose glob matches the requested action and whose
condition holds yields its effect (spec §4.5 step 1). -/
def evalPrincipalActions (p : Principal) (r : Resource) (action : String) :
    List PrincipalRuleAction → Option Effect
  | [] => Option.none
  | a :: rest =>
    if globMatches a.action action && evalCond p r a.condition then some a.effect
    else evalPrincipalActions p r action rest

/-- Principal rules are scanned in declaration order for a resource glob
matching the request's resource kind (spec §4.5 step 1). -/
def evalPrincipalRules (p : Principal) (r : Resource) (action : String) :
    List PrincipalRuleM → Option Effect
  | [] => Option.none
  | rule :: rest =>
    if globMatches rule.resource r.kind then
      match evalPrincipalActions p r action rule.actions with
      | some e => some e
      | Option.none => evalPrincipalRules p r action rest
    else evalPrincipalRules p r action rest

/-- A per-action decision: effect plus the matched policy identifier. -/
structure ActionDecision where
  effect : Effect
  policy : String
deriving DecidableEq

/-- Modelled from the spec: the resource-policy stage (spec §4.5 steps 2–3).
When a resource policy exists for the resource's kind and version, an action no
rule matches is denied under that policy's identifier (as the source
`wantOutputs` under src/internal/test/testdata/engine record); when no policy
exists at all, the default is a deny attributed to `NO_MATCH`. -/
def checkResource (b : PolicyBundle) (p : Principal) (r : Resource)
    (action : String) : ActionDecision :=
  match findResourcePolicy b r.kind r.policyVersion with
  | some cu =>
    match evalResourceRules p r (effectiveDerivedRoles p r cu) action cu.rules with
    | some e => ⟨e, resourcePolicyId cu⟩
    | Option.none => ⟨.deny, resourcePolicyId cu⟩
  | Option.none => ⟨.deny, "NO_MATCH"⟩

/-- Modelled from the spec: the per-action resolution order (spec §4.5): the
principal policy is consulted first; only when none of its rules produce an
effect is the resource policy consulted. -/
def checkAction (b : PolicyBundle) (p : Principal) (r : Resource)
    (action : String) : ActionDecision :=
  match findPrincipalPolicy b p.id p.policyVersion with
  | some pp =>
    match evalPrincipalRules p r action pp.rules with
    | some e => ⟨e, principalPolicyId pp⟩
    | Option.none => checkResource b p r action
  | Option.none => checkResource b p r action

/-- The `effectiveDerivedRoles` reported for a request: those of the resource
policy selected for the request (spec §4.5). -/
def checkEffectiveDerivedRoles (b : PolicyBundle) (p : Principal) (r : Resource) :
    List String :=
  match findResourcePolicy b r.kind r.policyVersion with
  | some cu => effectiveDerivedRoles p r cu
  | Option.none => []

/-- Modelled from the spec: the `any_employee` derived role — every `employee`
(spec S1/S2: it activates for `sally`, and for `donald_duck` in the test data
of src/unnamed/part_001). -/
def anyEmployee : RoleDef :=
  ⟨"any_employee", ["employee"], Option.none⟩

/-- Modelled from the spec: the `direct_manager` derived role — a `manager`
whose managed geographies cover the resource's geography (spec S1/S2: `sally`
with `managed_geographies: GB` activates it on a `geography: GB` resource). -/
def directManager : RoleDef :=
  ⟨"direct_manager", ["manager"],
    some (.expr (.resourceAttrEqPrincipalAttr "geography" "managed_geographies"))⟩

/-- Modelled from the spec: the `leave_request` resource policy, version
`20210210` (spec S1/S2 and the `wantOutputs` of
src/internal/test/testdata/engine/case_02.yaml and src/unnamed/part_001):
`view:public` is allowed to `any_employee`; `approve` is allowed to
`direct_manager` while the request is `PENDING_APPROVAL`. -/
def leaveRequest20210210 : ResourcePolicyCU :=
  { resource := "leave_request"
    version := "20210210"
    derivedRoleDefs := [anyEmployee, directManager]
    rules :=
      [ { actions := ["view:public"], roles := [], derivedRoles := ["any_employee"]
          condition := Option.none, effect := .allow },
        { actions := ["approve"], roles := [], derivedRoles := ["direct_manager"]
          condition := some (.expr (.resourceAttrEq "status" (.str "PENDING_APPROVAL")))
          effect := .allow } ] }

/-- Modelled from the spec: the `leave_request` resource policy, version
`staging` (spec S4 and the `wantOutputs` of
src/internal/test/testdata/engine/case_08.yaml): `view:public` is allowed to
the plain `employee` role; no derived roles are imported (the recorded
`effectiveDerivedRoles` is empty) and `approve` matches no rule. -/
def leaveRequestStaging : ResourcePolicyCU :=
  { resource := "leave_request"
    version := "staging"
    derivedRoleDefs := []
    rules :=
      [ { actions := ["view:public"], roles := ["employee"], derivedRoles := []
          condition := Option.none, effect := .allow } ] }

/-- Modelled from the spec: `donald_duck`'s principal policy, version
`20210210` (spec S3): it explicitly allows `approve` and `view:public` on
`leave_request`, conditioned on the resource being a dev record (the fallback
to the resource policy for the non-dev resource `XX150` is recorded in the
`wantOutputs` of src/unnamed/part_001). -/
def donaldDuckPolicy : PrincipalPolicyCU :=
  { principal := "donald_duck"
    version := "20210210"
    rules :=
      [ { resource := "leave_request"
          actions :=
            [ ⟨"approve", .allow, some (.expr (.resourceAttrEq "dev_record" (.bool true)))⟩,
              ⟨"view:public", .allow, some (.expr (.resourceAttrEq "dev_record" (.bool true)))⟩ ] } ] }

/-- The compiled policy set of the claimed scenarios. -/
def testBundle : PolicyBundle :=
  ⟨[donaldDuckPolicy], [leaveRequest20210210, leaveRequestStaging]⟩

/-- Principal `sally` of case_02 (spec S1/S2). -/
def sally : Principal :=
  ⟨"sally", "20210210", ["employee", "manager"],
    [("department", .str "marketing"), ("geography", .str "GB"),
      ("team", .str "design"), ("managed_geographies", .str "GB")]⟩

/-- Resource `XX125` of case_02 test1: a pending-approval leave request. -/
def resourceXX125Pending : Resource :=
  ⟨"leave_request", "20210210", "XX125",
    [("department", .str "marketing"), ("geography", .str "GB"),
      ("id", .str "XX125"), ("owner", .str "john"), ("team", .str "design"),
      ("status", .str "PENDING_APPROVAL")]⟩

/-- Resource `XX150` of case_02 test2: a draft leave request. -/
def resourceXX150Draft : Resource :=
  ⟨"leave_request", "20210210", "XX150",
    [("department", .str "marketing"), ("geography", .str "GB"),
      ("id", .str "XX150"), ("owner", .str "john"), ("team", .str "design"),
      ("status", .str "DRAFT")]⟩

/-- Principal `donald_duck` of src/unnamed/part_001 test1. -/
def donaldDuck : Principal :=
  ⟨"donald_duck", "20210210", ["employee"],
    [("department", .str "marketing"), ("geography", .str "GB"),
      ("team", .str "design"), ("managed_geographies", .str "GB")]⟩

/-- Resource `XX125` of src/unnamed/part_001 test1: a dev record
(`dev_record: true`), pending approval. -/
def resourceXX125Dev : Resource :=
  ⟨"leave_request", "20210210", "XX125",
    [("department", .str "marketing"), ("geography", .str "GB"),
      ("id", .str "XX125"), ("owner", .str "john"), ("team", .str "design"),
      ("status", .str "PENDING_APPROVAL"), ("dev_record", .bool true)]⟩

/-- Resource `XX150` of src/unnamed/part_001 test2: like `XX125` but not a dev
record. -/
def resourceXX150NonDev : Resource :=
  ⟨"leave_request", "20210210", "XX150",
    [("department", .str "marketing"), ("geography", .str "GB"),
      ("id", .str "XX150"), ("owner", .str "john"), ("team", .str "design"),
      ("status", .str "PENDING_APPROVAL")]⟩

/-- Principal `john` of case_08 (spec S4). -/
def john : Principal :=
  ⟨"john", "20210210", ["employee"],
    [("department", .str "marketing"), ("geography", .str "GB"),
      ("team", .str "design")]⟩

/-- Resource `XX125` of case_08: policy version `staging`, no status
attribute. -/
def resourceXX125Staging : Resource :=
  ⟨"leave_request", "staging", "XX125",
    [("department", .str "marketing"), ("geography", .str "GB"),
      ("id", .str "XX125"), ("owner", .str "john"), ("team", .str "design")]⟩

end Engine

namespace Loader

/-- A load failure (spec §7, `LoadError`). -/
inductive LoadError where
  | noPolicy
  | multiplePolicies
  | malformed
deriving DecidableEq

/-- The advertised source format (spec §4.1). -/
inductive DocFormat where
  | yaml
  | json
deriving DecidableEq

/-- Modelled from the spec: a policy document as the loader sees it — the
apiVersion, the kind tag of the single active `policyType` variant, its name or
target, its version, the remaining body fields flattened to key/value pairs,
and the `jsonSchema` annotation (present in YAML sources, absent in JSON ones;
excluded from the content hash, spec §3/§4.1).  The loader and hasher
implementations are not under src/; only their tests are
(src/unnamed/part_000). -/
structure PolicyDoc where
  apiVersion : String
  kind : String
  name : String
  version : String
  body : List (String × String)
  jsonSchema : String
deriving DecidableEq

/-- A decoded top-level document: its format, the optional annotation
(the `yaml-language-server` comment carried by YAML sources), and the field
pairs of the single top-level object. -/
structure RawDoc where
  format : DocFormat
  annotation : Option String
  fields : List (String × String)

/-- Modelled from the spec: the canonical field serialization of a policy —
the annotation field `jsonSchema` is not part of it (spec §4.1). -/
def serializeFields (p : PolicyDoc) : List (String × String) :=
  [("apiVersion", p.apiVersion), ("kind", p.kind), ("name", p.name),
    ("version", p.version)] ++ p.body

/-- The YAML encoding of a policy: the canonical fields plus the
`yaml-language-server` annotation comment. -/
def encodeYAMLDoc (p : PolicyDoc) (ann : String) : RawDoc :=
  ⟨.yaml, some ann, serializeFields p⟩

/-- The JSON encoding of a policy: the canonical fields, no annotation. -/
def encodeJSONDoc (p : PolicyDoc) : RawDoc :=
  ⟨.json, Option.none, serializeFields p⟩

/-- Modelled from the spec: decoding one document back into a policy; the
annotation, when present, is retained in the policy's `jsonSchema` field
(spec §3: the content hash excludes it so that YAML and JSON serializations
hash identically). -/
def readPolicyDoc (d : RawDoc) : Except LoadError PolicyDoc :=
  match d.fields with
  | ("apiVersion", a) :: ("kind", k) :: ("name", n) :: ("version", v) :: body =>
      .ok ⟨a, k, n, v, body, (d.annotation.getD "")⟩
  | _ => .error .malformed

/-- Modelled from the spec: reading a source unit that may be a YAML stream —
exactly one top-level document is accepted; a stream with more than one
document is rejected as "multiple policies in one file" (spec §4.1, S6;
tested by TestReadFileWithMultiplePolicies in src/unnamed/part_000). -/
def readPolicyStream (docs : List RawDoc) : Except LoadError PolicyDoc :=
  match docs with
  | [] => .error .noPolicy
  | [d] => readPolicyDoc d
  | _ :: _ :: _ => .error .multiplePolicies

/-- Byte representation of a string for hashing. -/
def stringBytes (s : String) : List Nat :=
  s.data.map (fun c => c.toNat)

/-- Bytes of one field: key, separator, value, separator. -/
def fieldBytes (kv : String × String) : List Nat :=
  stringBytes kv.1 ++ [0] ++ stringBytes kv.2 ++ [1]

/-- The FNV-1a offset basis (64-bit). -/
def fnvOffsetBasis : Nat := 0xcbf29ce484222325

/-- The FNV-1a prime (64-bit). -/
def fnvPrime : Nat := 0x100000001b3

/-- One FNV-1a step: XOR the byte in, multiply by the prime, modulo 2^64. -/
def fnv1aStep (h b : Nat) : Nat :=
  ((h ^^^ b) * fnvPrime) % 2 ^ 64

/-- Modelled from the spec: 64-bit FNV-1a over a byte sequence (spec §4.1). -/
def fnv1a64 (bs : List Nat) : Nat :=
  bs.foldl fnv1aStep fnvOffsetBasis

/-- Modelled from the spec: `policy.GetHash` — the content hash is FNV-1a over
the canonical serialization, from which the `jsonSchema` annotation field is
omitted (spec §3, §4.1). -/
def GetHash (p : PolicyDoc) : Nat :=
  fnv1a64 ((serializeFields p).flatMap fieldBytes)

end Loader

namespace Schema

mutual

/-- A raw `cerbos.policy.v1.Match` value as decoded from a JSON document,
before validation (src/schema/jsonschema/cerbos/policy/v1/
ResourceRule.schema.json, definition `cerbos.policy.v1.Match`): each of the
four properties `all`, `any`, `none`, `expr` may be present or absent. -/
inductive RawMatch where
  | mk (allF anyF noneF : RawExprList) (exprF : Option String)

/-- A raw `all` / `any` / `none` property: absent, present without the
required `of` array, or present with an `of` array. -/
inductive RawExprList where
  | absent
  | noOf
  | ofList (l : RawMatchList)

/-- A raw `of` array of `Match` values. -/
inductive RawMatchList where
  | nil
  | cons (m : RawMatch) (ms : RawMatchList)

end

/-- Whether a variant property is present on the JSON object. -/
def fieldPresent : RawExprList → Bool
  | .absent => false
  | .noOf => true
  | .ofList _ => true

/-- Length of a raw `of` array. -/
def rawLength : RawMatchList → Nat
  | .nil => 0
  | .cons _ ms => rawLength ms + 1

/-- How many of the four variant properties are present: the number of the
`oneOf` subschemas (`required: [all]`, `required: [any]`, `required: [none]`,
`required: [expr]`) the object satisfies. -/
def countPresentFields (a y n : RawExprList) (e : Option String) : Nat :=
  (cond (fieldPresent a) 1 0) + (cond (fieldPresent y) 1 0) +
    (cond (fieldPresent n) 1 0) + (cond e.isSome 1 0)

mutual

/-- Validation of a `Match` value per the JSON schema: the `oneOf` constraint
holds exactly when exactly one of the four variant properties is present
(JSON-schema `oneOf` means valid against exactly one subschema), and every
present `all` / `any` / `none` property must be a valid `ExprList`. -/
def validMatch : RawMatch → Bool
  | .mk a y n e =>
    countPresentFields a y n e == 1 &&
      validField a && validField y && validField n

/-- Validation of a present `ExprList`: the `of` member is required, must have
at least one element (`minItems: 1`), and its items must be valid `Match`
values; an absent property is vacuously fine. -/
def validField : RawExprList → Bool
  | .absent => true
  | .noOf => false
  | .ofList l => decide (1 ≤ rawLength l) && validMList l

/-- Validation of every item of an `of` array. -/
def validMList : RawMatchList → Bool
  | .nil => true
  | .cons m ms => validMatch m && validMList ms

end

end Schema

namespace Client

/-- The `apiVersion` constant of the client builders
(src/client/model.go line 31). -/
def apiVersion : String := "api.cerbos.dev/v1"

/-- The fields of `policyv1.ResourcePolicy` the builder populates
(src/client/model.go, `NewResourcePolicy` and its With-combinators). -/
structure ResourcePolicyPB where
  resource : String
  version : String
  scope : String
  importDerivedRoles : List String
deriving DecidableEq

/-- The fields of `policyv1.PrincipalPolicy` the builder populates. -/
structure PrincipalPolicyPB where
  principal : String
  version : String
  scope : String
deriving DecidableEq

/-- The fields of `policyv1.DerivedRoles` the builder populates. -/
structure DerivedRolesPB where
  name : String
deriving DecidableEq

/-- The fields of `policyv1.ExportVariables` the builder populates. -/
structure ExportVariablesPB where
  name : String
deriving DecidableEq

/-- The `policy_type` oneof of `policyv1.Policy`. -/
inductive PolicyType where
  | resourcePolicy (rp : ResourcePolicyPB)
  | principalPolicy (pp : PrincipalPolicyPB)
  | derivedRoles (dr : DerivedRolesPB)
  | exportVariables (ev : ExportVariablesPB)
deriving DecidableEq

/-- `policyv1.Policy`: the apiVersion plus the active policy-type variant. -/
structure Policy where
  apiVersion : String
  policyType : PolicyType
deriving DecidableEq

/-- A validation failure of `policy.Validate`. -/
inductive ValidationError where
  | badApiVersion
  | emptyName
deriving DecidableEq

/-- Modelled from the spec: `internal/policy.Validate` is not under src/; per
spec §3 every Policy must have `apiVersion = "api.cerbos.dev/v1"`, and
TestValidate (src/unnamed/part_000) requires an error for any other apiVersion
(input `"something"`) and for an empty resource name. -/
def policyValidate (p : Policy) : Except ValidationError Unit :=
  if p.apiVersion ≠ apiVersion then .error .badApiVersion
  else
    match p.policyType with
    | .resourcePolicy rp => if rp.resource = "" then .error .emptyName else .ok ()
    | .principalPolicy pp => if pp.principal = "" then .error .emptyName else .ok ()
    | .derivedRoles dr => if dr.name = "" then .error .emptyName else .ok ()
    | .exportVariables ev => if ev.name = "" then .error .emptyName else .ok ()

/-- The `ResourcePolicy` builder (src/client/model.go): it wraps a
`policyv1.ResourcePolicy` under construction. -/
structure ResourcePolicy where
  p : ResourcePolicyPB

/-- `NewResourcePolicy` (src/client/model.go lines 876-884). -/
def NewResourcePolicy (resource version : String) : ResourcePolicy :=
  ⟨⟨resource, version, "", []⟩⟩

/-- `ResourcePolicy.build` (src/client/model.go lines 952-961): wraps the
built policy with `ApiVersion: apiVersion` and returns it together with the
validation outcome. -/
def ResourcePolicy.build (rp : ResourcePolicy) :
    Policy × Except ValidationError Unit :=
  let p : Policy := ⟨apiVersion, .resourcePolicy rp.p⟩
  (p, policyValidate p)

/-- The `PrincipalPolicy` builder (src/client/model.go). -/
structure PrincipalPolicy where
  pp : PrincipalPolicyPB

/-- `NewPrincipalPolicy` (src/client/model.go lines 1034-1042). -/
def NewPrincipalPolicy (principal version : String) : PrincipalPolicy :=
  ⟨⟨principal, version, ""⟩⟩

/-- `PrincipalPolicy.build` (src/client/model.go lines 1101-1110). -/
def PrincipalPolicy.build (pp : PrincipalPolicy) :
    Policy × Except ValidationError Unit :=
  let p : Policy := ⟨apiVersion, .principalPolicy pp.pp⟩
  (p, policyValidate p)

/-- The `DerivedRoles` builder (src/client/model.go). -/
structure DerivedRoles where
  dr : DerivedRolesPB

/-- `NewDerivedRoles` (src/client/model.go lines 1174-1181). -/
def NewDerivedRoles (name : String) : DerivedRoles :=
  ⟨⟨name⟩⟩

/-- `DerivedRoles.build` (src/client/model.go lines 1222-1231). -/
def DerivedRoles.build (dr : DerivedRoles) :
    Policy × Except ValidationError Unit :=
  let p : Policy := ⟨apiVersion, .derivedRoles dr.dr⟩
  (p, policyValidate p)

/-- The `ExportVariables` builder (src/client/model.go). -/
structure ExportVariables where
  ev : ExportVariablesPB

/-- `NewExportVariables` (src/client/model.go lines 1239-1246). -/
def NewExportVariables (name : String) : ExportVariables :=
  ⟨⟨name⟩⟩

/-- `ExportVariables.build` (src/client/model.go lines 1265-1274). -/
def ExportVariables.build (ev : ExportVariables) :
    Policy × Except ValidationError Unit :=
  let p : Policy := ⟨apiVersion, .exportVariables ev.ev⟩
  (p, policyValidate p)

/-- `effectv1.Effect`: the protobuf enum, whose zero value is
`EFFECT_UNSPECIFIED` (a Go map lookup of a missing key yields it). -/
inductive PbEffect where
  | unspecified
  | allow
  | deny
  | noMatch
deriving DecidableEq

/-- The per-resource entry of `CheckResourceSetResponse.ResourceInstances`:
its per-action effects. -/
structure ActionEffectList where
  actions : List (String × PbEffect)

/-- `responsev1.CheckResourceSetResponse`: resource instances keyed by ID. -/
structure CheckResourceSetResponse where
  resourceInstances : List (String × ActionEffectList)

/-- `CheckResourceSetResponse.IsAllowed` (src/client/model.go lines 280-292):
missing resource or missing action yields false; otherwise the recorded effect
is compared with `EFFECT_ALLOW`. -/
def CheckResourceSetResponse.IsAllowed (crsr : CheckResourceSetResponse)
    (resourceID action : String) : Bool :=
  match alookup resourceID crsr.resourceInstances with
  | Option.none => false
  | some res =>
    match alookup action res.actions with
    | Option.none => false
    | some effect => effect == .allow

/-- One entry of `CheckResourceBatchResponse.Results`. -/
structure BatchResultEntry where
  resourceId : String
  actions : List (String × PbEffect)

/-- `responsev1.CheckResourceBatchResponse`. -/
structure CheckResourceBatchResponse where
  results : List BatchResultEntry

/-- The loop of `CheckResourceBatchResponse.IsAllowed`
(src/client/model.go lines 403-422): `buildIdx` groups the result indices by
resource ID in ascending order and the loop visits them in that order,
returning on the first entry that contains the action; visiting those indices
is the in-order scan of the entries whose resource ID matches, embedded here
directly. -/
def batchScan (resourceID action : String) : List BatchResultEntry → Bool
  | [] => false
  | r :: rest =>
    if r.resourceId = resourceID then
      match alookup action r.actions with
      | some effect => effect == .allow
      | Option.none => batchScan resourceID action rest
    else batchScan resourceID action rest

/-- `CheckResourceBatchResponse.IsAllowed` (src/client/model.go lines
403-422). -/
def CheckResourceBatchResponse.IsAllowed (crbr : CheckResourceBatchResponse)
    (resourceID action : String) : Bool :=
  batchScan resourceID action crbr.results

/-- `client.ResourceResult`: a result entry plus the lookup error recorded by
`GetResource`. -/
structure ResourceResult where
  err : Option String
  actions : List (String × PbEffect)

/-- `ResourceResult.IsAllowed` (src/client/model.go lines 459-465): false when
the result carries an error; otherwise the Go map lookup `rr.Actions[action]`
yields `EFFECT_UNSPECIFIED` for a missing action, which is compared with
`EFFECT_ALLOW`. -/
def ResourceResult.IsAllowed (rr : ResourceResult) (action : String) : Bool :=
  match rr.err with
  | Option.none => ((alookup action rr.actions).getD .unspecified) == .allow
  | some _ => false

end Client

namespace NamePattern

/-- The inclusive character range `lo-hi` of a character class. -/
def charRange (lo hi : Char) : List Char :=
  (List.range (hi.toNat + 1 - lo.toNat)).map (fun i => Char.ofNat (lo.toNat + i))

/-- A character class `[...]`: the alternation of its characters. -/
def charClass (cs : List Char) : RegularExpression Char :=
  cs.foldr (fun c r => RegularExpression.char c + r) 0

/-- The characters of the class `[\--\.0-9@-Z_a-z]`: the ranges `-` to `.`,
`0` to `9`, `@` to `Z`, the underscore, and `a` to `z`. -/
def innerClassChars : List Char :=
  charRange '-' '.' ++ charRange '0' '9' ++ charRange '@' 'Z' ++ ['_'] ++
    charRange 'a' 'z'

/-- The characters of the class `[A-Za-z]`. -/
def letterChars : List Char :=
  charRange 'A' 'Z' ++ charRange 'a' 'z'

/-- The validation pattern of `ResourceRule.name` as it stands in the source,
`^([A-Za-z][\--\.0-9@-Z_a-z]*)*$`
(src/schema/jsonschema/cerbos/policy/v1/ResourceRule.schema.json lines
147-150): zero or more blocks, each a letter followed by inner-class
characters; the anchors make the whole string match. -/
def ruleNameRE : RegularExpression Char :=
  (charClass letterChars * (charClass innerClassChars).star).star

/-- The pattern the spec's words claim for `ResourceRule.name`,
`^[\--\.0-9@-Z_a-z]*$` (spec §9, open question): stated here only to be
compared against the pattern the source actually carries. -/
def specClaimedNameRE : RegularExpression Char :=
  (charClass innerClassChars).star

/-- Acceptance of a rule name: the anchored match of the source pattern. -/
def ruleNameAccepted (s : String) : Bool :=
  ruleNameRE.rmatch s.data

/-- Anchored match of the pattern the spec claims. -/
def specClaimedNameMatches (s : String) : Bool :=
  specClaimedNameRE.rmatch s.data

end NamePattern

namespace Engine

/-- Sanity: the modelled bundle reproduces the remaining recorded outputs of
src/unnamed/part_001 test2 (fallback to the resource policy when the resource
is not a dev record). -/
theorem part001_test2_consistency :
    checkAction testBundle donaldDuck resourceXX150NonDev "approve" =
      ⟨.deny, "resource.leave_request.v20210210"⟩ ∧
    checkAction testBundle donaldDuck resourceXX150NonDev "view:public" =
      ⟨.allow, "resource.leave_request.v20210210"⟩ ∧
    checkEffectiveDerivedRoles testBundle donaldDuck resourceXX150NonDev =
      ["any_employee"] := by
  decide

/-- Sanity: src/unnamed/part_001 test1 also records `view:public` as allowed by
the principal policy. -/
theorem part001_test1_view_consistency :
    checkAction testBundle donaldDuck resourceXX125Dev "view:public" =
      ⟨.allow, "principal.donald_duck.v20210210"⟩ := by
  decide

/-- C1: for principal `donald_duck` (policy version 20210210, role employee)
acting on the `leave_request` resource `XX125` whose attributes include
`dev_record: true`, the action `approve` yields `EFFECT_ALLOW` with matched
policy identifier `principal.donald_duck.v20210210`: the principal policy is
consulted before any resource policy. -/
theorem C1_principal_policy_precedence :
    checkAction testBundle donaldDuck resourceXX125Dev "approve" =
      ⟨.allow, "principal.donald_duck.v20210210"⟩ := by
  decide

/-- C2: for principal `john` (policy version 20210210) on a `leave_request`
resource carrying policy version `staging`, the action `approve` yields
`EFFECT_DENY` under `resource.leave_request.vstaging` — the resource's version,
not the principal's, selects the resource policy — and `view:public` in the
same request yields `EFFECT_ALLOW` under the same policy. -/
theorem C2_resource_version_selects_policy :
    checkAction testBundle john resourceXX125Staging "approve" =
      ⟨.deny, "resource.leave_request.vstaging"⟩ ∧
    checkAction testBundle john resourceXX125Staging "view:public" =
      ⟨.allow, "resource.leave_request.vstaging"⟩ := by
  decide

/-- C3: for principal `sally` (roles employee and manager) on the
pending-approval `leave_request` `XX125`, the action `approve` yields
`EFFECT_ALLOW` under `resource.leave_request.v20210210` and the effective
derived roles are exactly `any_employee` and `direct_manager`. -/
theorem C3_manager_approves_pending :
    checkAction testBundle sally resourceXX125Pending "approve" =
      ⟨.allow, "resource.leave_request.v20210210"⟩ ∧
    checkEffectiveDerivedRoles testBundle sally resourceXX125Pending =
      ["any_employee", "direct_manager"] := by
  decide

/-- C4: for the same principal `sally` on a draft `leave_request`, the action
`approve` yields `EFFECT_DENY` under `resource.leave_request.v20210210`, and
the effective derived roles are still exactly `any_employee` and
`direct_manager`: derived-role activation is computed even when the decision is
a deny. -/
theorem C4_draft_approve_denied_derived_roles_kept :
    checkAction testBundle sally resourceXX150Draft "approve" =
      ⟨.deny, "resource.leave_request.v20210210"⟩ ∧
    checkEffectiveDerivedRoles testBundle sally resourceXX150Draft =
      ["any_employee", "direct_manager"] := by
  decide

end Engine

namespace Loader

/-- C5: for every policy document, reading its YAML encoding (which carries a
`jsonSchema` annotation) and reading its JSON encoding succeed and produce
policies with the same content hash, and both hashes equal the hash of the
policy itself: the hash excludes the `jsonSchema` annotation field. -/
theorem C5_hash_stability (p : PolicyDoc) (ann : String) :
    ∃ py pj, readPolicyDoc (encodeYAMLDoc p ann) = .ok py ∧
      readPolicyDoc (encodeJSONDoc p) = .ok pj ∧
      GetHash py = GetHash pj ∧ GetHash py = GetHash p := by
  refine ⟨⟨p.apiVersion, p.kind, p.name, p.version, p.body, ann⟩,
    ⟨p.apiVersion, p.kind, p.name, p.version, p.body, ""⟩, rfl, rfl, rfl, rfl⟩

/-- C6: every input stream containing more than one top-level document is
rejected by the loader with the "multiple policies in one file" error; no
policy value is returned (in particular the first document is never silently
returned). -/
theorem C6_multiple_documents_rejected (docs : List RawDoc)
    (h : 1 < docs.length) :
    readPolicyStream docs = .error .multiplePolicies := by
  match docs, h with
  | d1 :: d2 :: rest, _ => rfl

/-- Witness for C6: a two-document YAML stream is rejected. -/
theorem C6_multiple_documents_rejected_witness :
    1 < ([⟨.yaml, Option.none, []⟩, ⟨.yaml, Option.none, []⟩] : List RawDoc).length ∧
    readPolicyStream [⟨.yaml, Option.none, []⟩, ⟨.yaml, Option.none, []⟩] =
      .error .multiplePolicies :=
  ⟨by decide, C6_multiple_documents_rejected _ (by decide)⟩

end Loader

namespace Schema

/-- C7: every `Match` value accepted by the JSON-schema validation has exactly
one of the variants `all`, `any`, `none`, `expr` present — never zero, never
two — and every present `all` / `any` / `none` variant carries an `of` list
with at least one element. -/
theorem C7_match_oneof_invariant (a y n : RawExprList) (e : Option String)
    (h : validMatch (.mk a y n e) = true) :
    countPresentFields a y n e = 1 ∧
    (fieldPresent a = true → ∃ l, a = .ofList l ∧ 1 ≤ rawLength l) ∧
    (fieldPresent y = true → ∃ l, y = .ofList l ∧ 1 ≤ rawLength l) ∧
    (fieldPresent n = true → ∃ l, n = .ofList l ∧ 1 ≤ rawLength l) := by
  unfold validMatch at h
  simp only [Bool.and_eq_true, beq_iff_eq] at h
  obtain ⟨⟨⟨h1, h2⟩, h3⟩, h4⟩ := h
  refine ⟨h1, ?_, ?_, ?_⟩
  · intro hp
    cases a with
    | absent => simp [fieldPresent] at hp
    | noOf => simp [validField] at h2
    | ofList l =>
      refine ⟨l, rfl, ?_⟩
      unfold validField at h2
      simp only [Bool.and_eq_true, decide_eq_true_eq] at h2
      exact h2.1
  · intro hp
    cases y with
    | absent => simp [fieldPresent] at hp
    | noOf => simp [validField] at h3
    | ofList l =>
      refine ⟨l, rfl, ?_⟩
      unfold validField at h3
      simp only [Bool.and_eq_true, decide_eq_true_eq] at h3
      exact h3.1
  · intro hp
    cases n with
    | absent => simp [fieldPresent] at hp
    | noOf => simp [validField] at h4
    | ofList l =>
      refine ⟨l, rfl, ?_⟩
      unfold validField at h4
      simp only [Bool.and_eq_true, decide_eq_true_eq] at h4
      exact h4.1

/-- Witness for C7: a `Match` carrying only `expr` is valid and its present
count is one. -/
theorem C7_match_oneof_invariant_witness :
    countPresentFields .absent .absent .absent (some "true") = 1 :=
  (C7_match_oneof_invariant .absent .absent .absent (some "true") (by decide)).1

end Schema

namespace Client

/-- C8: every Policy built by the client builders carries apiVersion
`api.cerbos.dev/v1`, and validation fails for every policy whose apiVersion is
any other string. -/
theorem C8_api_version_invariant :
    (∀ rp : ResourcePolicy,
      (ResourcePolicy.build rp).1.apiVersion = "api.cerbos.dev/v1") ∧
    (∀ pp : PrincipalPolicy,
      (PrincipalPolicy.build pp).1.apiVersion = "api.cerbos.dev/v1") ∧
    (∀ dr : DerivedRoles,
      (DerivedRoles.build dr).1.apiVersion = "api.cerbos.dev/v1") ∧
    (∀ ev : ExportVariables,
      (ExportVariables.build ev).1.apiVersion = "api.cerbos.dev/v1") ∧
    (∀ p : Policy, p.apiVersion ≠ "api.cerbos.dev/v1" →
      ∃ err, policyValidate p = .error err) := by
  refine ⟨fun _ => rfl, fun _ => rfl, fun _ => rfl, fun _ => rfl, ?_⟩
  intro p hp
  refine ⟨.badApiVersion, ?_⟩
  simp [policyValidate, apiVersion, hp]

/-- Witness for C8: the apiVersion `"something"` of TestValidate is
rejected. -/
theorem C8_api_version_invariant_witness :
    ∃ err, policyValidate ⟨"something", .derivedRoles ⟨"x"⟩⟩ = .error err :=
  C8_api_version_invariant.2.2.2.2 ⟨"something", .derivedRoles ⟨"x"⟩⟩ (by decide)

/-- Helper for C10: a true batch scan exhibits a matching entry recording
`EFFECT_ALLOW`. -/
theorem batchScan_true_mem (rid act : String) (rs : List BatchResultEntry)
    (h : batchScan rid act rs = true) :
    ∃ r ∈ rs, r.resourceId = rid ∧
      alookup act r.actions = some PbEffect.allow := by
  induction rs with
  | nil => simp [batchScan] at h
  | cons r rest ih =>
    unfold batchScan at h
    by_cases hr : r.resourceId = rid
    · rw [if_pos hr] at h
      cases ha : alookup act r.actions with
      | none =>
        rw [ha] at h
        obtain ⟨r', hm, hp⟩ := ih h
        exact ⟨r', by simp [hm], hp⟩
      | some eff =>
        rw [ha] at h
        have heff : eff = PbEffect.allow := by simpa using h
        exact ⟨r, by simp, hr, heff ▸ ha⟩
    · rw [if_neg hr] at h
      obtain ⟨r', hm, hp⟩ := ih h
      exact ⟨r', by simp [hm], hp⟩

/-- Helper for C10: when no entry for the resource records the action, the
batch scan is false. -/
theorem batchScan_absent_false (rid act : String) (rs : List BatchResultEntry)
    (h : ∀ r ∈ rs, r.resourceId = rid → alookup act r.actions = Option.none) :
    batchScan rid act rs = false := by
  induction rs with
  | nil => rfl
  | cons r rest ih =>
    unfold batchScan
    by_cases hr : r.resourceId = rid
    · rw [if_pos hr, h r (by simp) hr]
      exact ih (fun r' hm hp => h r' (by simp [hm]) hp)
    · rw [if_neg hr]
      exact ih (fun r' hm hp => h r' (by simp [hm]) hp)

/-- C10: the response accessors default to false on missing entries:
`CheckResourceSetResponse.IsAllowed` is true exactly when the resource is
present, the action is present for it, and the recorded effect is
`EFFECT_ALLOW`; `CheckResourceBatchResponse.IsAllowed` is true only when a
result for the resource records `EFFECT_ALLOW` for the action, and is false
when the resource or the action is absent; and `ResourceResult.IsAllowed` is
false whenever the result carries an error, and is true only when there is no
error and the recorded effect is `EFFECT_ALLOW`. -/
theorem C10_is_allowed_missing_entry_defaults :
    (∀ (crsr : CheckResourceSetResponse) (rid act : String),
      crsr.IsAllowed rid act = true ↔
        ∃ res, alookup rid crsr.resourceInstances = some res ∧
          alookup act res.actions = some PbEffect.allow) ∧
    (∀ (crbr : CheckResourceBatchResponse) (rid act : String),
      crbr.IsAllowed rid act = true →
        ∃ r ∈ crbr.results, r.resourceId = rid ∧
          alookup act r.actions = some PbEffect.allow) ∧
    (∀ (crbr : CheckResourceBatchResponse) (rid act : String),
      (∀ r ∈ crbr.results, r.resourceId = rid →
        alookup act r.actions = Option.none) →
      crbr.IsAllowed rid act = false) ∧
    (∀ (rr : ResourceResult) (act : String),
      rr.err ≠ Option.none → rr.IsAllowed act = false) ∧
    (∀ (rr : ResourceResult) (act : String),
      rr.IsAllowed act = true →
        rr.err = Option.none ∧ alookup act rr.actions = some PbEffect.allow) := by
  refine ⟨?_, ?_, ?_, ?_, ?_⟩
  · intro crsr rid act
    unfold CheckResourceSetResponse.IsAllowed
    cases h1 : alookup rid crsr.resourceInstances with
    | none => simp [h1]
    | some res =>
      cases h2 : alookup act res.actions with
      | none => simp [h1, h2]
      | some eff => simp [h1, h2, beq_iff_eq]
  · intro crbr rid act h
    exact batchScan_true_mem rid act crbr.results h
  · intro crbr rid act h
    exact batchScan_absent_false rid act crbr.results h
  · intro rr act herr
    unfold ResourceResult.IsAllowed
    cases h : rr.err with
    | none => exact absurd h herr
    | some msg => rfl
  · intro rr act h
    unfold ResourceResult.IsAllowed at h
    cases he : rr.err with
    | some msg => rw [he] at h; exact absurd h (by simp)
    | none =>
      rw [he] at h
      refine ⟨rfl, ?_⟩
      cases ha : alookup act rr.actions with
      | none => rw [ha] at h; simp [Option.getD] at h
      | some eff =>
        rw [ha] at h
        have heq : eff = PbEffect.allow := by simpa using h
        exact congrArg some heq

/-- Witness for C10: a result entry carrying an error is never allowed, and a
true batch answer exhibits its allowing entry. -/
theorem C10_is_allowed_missing_entry_defaults_witness :
    ResourceResult.IsAllowed ⟨some "resource not found", [("read", .allow)]⟩ "read" = false ∧
    ∃ r ∈ ([⟨"a", [("read", PbEffect.allow)]⟩] : List BatchResultEntry),
      r.resourceId = "a" ∧ alookup "read" r.actions = some PbEffect.allow :=
  ⟨C10_is_allowed_missing_entry_defaults.2.2.2.1
      ⟨some "resource not found", [("read", .allow)]⟩ "read" (by simp),
    C10_is_allowed_missing_entry_defaults.2.1 ⟨[⟨"a", [("read", PbEffect.allow)]⟩]⟩
      "a" "read" (by decide)⟩

end Client

namespace NamePattern

/-- Splitting a string into its characters and regrouping them is the
identity. -/
theorem flatten_map_singleton (x : List Char) :
    (x.map (fun c => [c])).flatten = x := by
  induction x with
  | nil => rfl
  | cons c cs ih => simp [ih]

/-- A character class matches exactly the one-character strings drawn from
it. -/
theorem charClass_rmatch (cs : List Char) (x : List Char) :
    (charClass cs).rmatch x = true ↔ ∃ c ∈ cs, x = [c] := by
  induction cs with
  | nil =>
    simp [charClass, RegularExpression.zero_rmatch]
  | cons c rest ih =>
    show (RegularExpression.char c + charClass rest).rmatch x = true ↔ _
    rw [RegularExpression.add_rmatch_iff, RegularExpression.char_rmatch_iff, ih]
    constructor
    · rintro (rfl | ⟨d, hd, rfl⟩)
      · exact ⟨c, by simp, rfl⟩
      · exact ⟨d, by simp [hd], rfl⟩
    · rintro ⟨d, hd, rfl⟩
      rcases List.mem_cons.mp hd with rfl | hd'
      · exact Or.inl rfl
      · exact Or.inr ⟨d, hd', rfl⟩

/-- The starred character class matches exactly the strings all of whose
characters are drawn from the class. -/
theorem charClass_star_rmatch (cs : List Char) (x : List Char) :
    ((charClass cs).star).rmatch x = true ↔ ∀ c ∈ x, c ∈ cs := by
  rw [RegularExpression.star_rmatch_iff]
  constructor
  · rintro ⟨S, rfl, hS⟩ c hc
    rw [List.mem_flatten] at hc
    obtain ⟨t, htS, hct⟩ := hc
    obtain ⟨-, ht⟩ := hS t htS
    rw [charClass_rmatch] at ht
    obtain ⟨d, hd, rfl⟩ := ht
    rw [List.mem_singleton] at hct
    exact hct ▸ hd
  · intro h
    refine ⟨x.map (fun c => [c]), (flatten_map_singleton x).symm, ?_⟩
    rintro t ht
    rw [List.mem_map] at ht
    obtain ⟨c, hc, rfl⟩ := ht
    exact ⟨by simp, (charClass_rmatch cs [c]).mpr ⟨c, h c hc, rfl⟩⟩

/-- Every letter of `[A-Za-z]` belongs to the inner class
`[\--\.0-9@-Z_a-z]` (the ranges `@-Z` and `a-z` cover it). -/
theorem letter_mem_innerClass : ∀ c ∈ letterChars, c ∈ innerClassChars := by
  decide

/-- C9 counterexample: the name `-` matches the pattern the spec claims,
`^[\--\.0-9@-Z_a-z]*$`, yet the source pattern
`^([A-Za-z][\--\.0-9@-Z_a-z]*)*$` rejects it, so acceptance is not equivalent
to the claimed pattern. -/
theorem C9_name_pattern_counterexample :
    ruleNameAccepted "-" = false ∧ specClaimedNameMatches "-" = true := by
  constructor
  · decide
  · decide

/-- C9 (amended): the validation pattern applied to `ResourceRule.name` is
`^([A-Za-z][\--\.0-9@-Z_a-z]*)*$` preserved literally; every accepted name
also matches the spec's `^[\--\.0-9@-Z_a-z]*$`, and the empty name is
accepted, but the converse fails: `-` matches the spec's class-star pattern
and is rejected. -/
theorem C9_name_pattern_amended :
    (∀ s : String, ruleNameAccepted s = true → specClaimedNameMatches s = true) ∧
    ruleNameAccepted "" = true ∧
    ruleNameAccepted "-" = false := by
  refine ⟨?_, by decide, by decide⟩
  intro s h
  unfold ruleNameAccepted ruleNameRE at h
  unfold specClaimedNameMatches specClaimedNameRE
  rw [charClass_star_rmatch]
  rw [RegularExpression.star_rmatch_iff] at h
  obtain ⟨S, hs, hS⟩ := h
  intro c hc
  rw [hs, List.mem_flatten] at hc
  obtain ⟨t, htS, hct⟩ := hc
  obtain ⟨-, ht⟩ := hS t htS
  rw [RegularExpression.mul_rmatch_iff] at ht
  obtain ⟨t1, t2, rfl, h1, h2⟩ := ht
  rw [charClass_rmatch] at h1
  obtain ⟨a, haL, rfl⟩ := h1
  rw [charClass_star_rmatch] at h2
  rcases List.mem_append.mp hct with hmem | hmem
  · rw [List.mem_singleton] at hmem
    exact hmem ▸ letter_mem_innerClass a haL
  · exact h2 c hmem

/-- Witness for C9 (amended): the accepted name `abc` matches the spec's
pattern as well. -/
theorem C9_name_pattern_amended_witness :
    specClaimedNameMatches "abc" = true :=
  C9_name_pattern_amended.1 "abc" (by decide)

end NamePattern

end Cerbos
